import Mathlib

/-!
Verification of the moderation-service toxicity detector
(`src/services/toxicity_detector.py`) against its specification.

The Python code is shallowly embedded: strings are `List Char`, floats are
modelled as exact rationals `ℚ` (the algorithms are plain arithmetic with no
float-specific behaviour in the claims), Python dicts keyed by strings are
insertion-ordered association lists, Python sets are duplicate-free lists,
and fallible calls return `Except`.  The opaque ML classifier invocation is
modelled by an `Except Unit ℚ` parameter: `.ok p` stands for "the model ran
and sigmoid produced probability p", `.error ()` for "an exception was raised
inside the try-block of `_check_toxicity_ml`".
-/

namespace Moderation

/-! ## Python primitive behaviour (ASCII fragment)

The service only ever handles text that went through the upstream sanitizer,
and every concrete input in this development is ASCII; `\s`, `\w`,
`str.lower` are embedded on their ASCII fragment. -/

/-- Python regex `\s` (ASCII fragment): space, tab, newline, CR, VT, FF. -/
def isPySpace (c : Char) : Bool :=
  c = ' ' || c = '\t' || c = '\n' || c = '\r' || c = '\x0b' || c = '\x0c'

/-- Python regex `\w` (ASCII fragment): letters, digits, underscore. -/
def isWordChar (c : Char) : Bool :=
  c.isAlpha || c.isDigit || c = '_'

/-- `re.sub(r'\s+', ' ', s)`: each maximal run of whitespace becomes one
space.  The boolean argument records whether the previous character was
whitespace (so the run emits only one space). -/
def collapseWsAux : List Char → Bool → List Char
  | [], _ => []
  | c :: rest, prevSpace =>
    if isPySpace c then
      if prevSpace then collapseWsAux rest true
      else ' ' :: collapseWsAux rest true
    else c :: collapseWsAux rest false

def collapseWs (s : List Char) : List Char := collapseWsAux s false

/-- Python `str.strip()` (ASCII whitespace). -/
def pyStrip (s : List Char) : List Char :=
  ((s.dropWhile isPySpace).reverse.dropWhile isPySpace).reverse

/-- Python `str.lower()` (ASCII fragment). -/
def pyLower (s : List Char) : List Char := s.map Char.toLower

/-! ## `_clean_content` — pattern-oriented normalization -/

/-- The leetspeak substitutions of `_clean_content`:
`[4@]→a`, `[3]→e`, `[1!]→i`, `[0]→o`, `[5$]→s`. -/
def deobfuscateChar (c : Char) : Char :=
  if c = '4' || c = '@' then 'a'
  else if c = '3' then 'e'
  else if c = '1' || c = '!' then 'i'
  else if c = '0' then 'o'
  else if c = '5' || c = '$' then 's'
  else c

/-- Characters kept by `re.sub(r'[^a-z0-9\s]', '', clean)`. -/
def keepRuleChar (c : Char) : Bool :=
  ('a' ≤ c && c ≤ 'z') || ('0' ≤ c && c ≤ '9') || isPySpace c

/-- `ToxicityDetector._clean_content`: lowercase, collapse whitespace and
strip, undo leetspeak, drop every non `[a-z0-9\s]` character. -/
def cleanContent (content : List Char) : List Char :=
  let c1 := pyLower content
  let c2 := pyStrip (collapseWs c1)
  let c3 := c2.map deobfuscateChar
  c3.filter keepRuleChar

/-! ## `_clean_content_for_ml` — classifier-oriented normalization -/

/-- Characters kept verbatim by `re.sub(r'[^\w\s\.\!\?\,\;\:\-\'\"]', ' ', clean)`
(everything else is replaced by one space). -/
def keepMlChar (c : Char) : Bool :=
  isWordChar c || isPySpace c || c = '.' || c = '!' || c = '?' || c = ',' ||
  c = ';' || c = ':' || c = '-' || c = '\'' || c = '"'

/-- `ToxicityDetector._clean_content_for_ml`: collapse whitespace and strip,
replace disallowed characters by a space, truncate to 512 characters. -/
def cleanContentForMl (content : List Char) : List Char :=
  let c1 := pyStrip (collapseWs content)
  let c2 := c1.map (fun c => if keepMlChar c then c else ' ')
  if c2.length > 512 then c2.take 512 else c2

/-! ## A small regex engine

Only the constructs used by `toxic_patterns` are embedded: literal
characters, ordered alternation, concatenation, the word boundary `\b`, and
the greedy `.*` (which can only consume non-newline characters).  Matching
follows Python's backtracking engine: `matchEnds` lists the lengths a
pattern can consume at the current position in the engine's preference
order (alternatives left to right, `.*` longest first), so its head is the
match the engine commits to. -/

inductive Rx where
  | eps : Rx
  | lit : Char → Rx
  | dotStar : Rx
  | alt : Rx → Rx → Rx
  | cat : Rx → Rx → Rx
  | wb : Rx
deriving Repr

/-- A literal word as a regex. -/
def Rx.str (s : String) : Rx :=
  (s.toList.map Rx.lit).foldr Rx.cat Rx.eps

/-- Ordered alternation of a non-empty list (left to right). -/
def Rx.altList : List Rx → Rx
  | [] => Rx.eps
  | [r] => r
  | r :: rs => Rx.alt r (Rx.altList rs)

/-- Python `\b`: true iff exactly one side of the position is a word char
(`none` = outside the string). -/
def isBoundary (prev next : Option Char) : Bool :=
  (match prev with | none => false | some c => isWordChar c) !=
  (match next with | none => false | some c => isWordChar c)

/-- Candidate consumed lengths of `r` at the head of `s` in backtracking
preference order; `prev` is the character just before the position. -/
def matchEnds : Rx → List Char → Option Char → List Nat
  | .eps, _, _ => [0]
  | .lit _, [], _ => []
  | .lit c, x :: _, _ => if x = c then [1] else []
  | .dotStar, s, _ =>
      (List.range ((s.takeWhile (fun c => c ≠ '\n')).length + 1)).reverse
  | .alt a b, s, p => matchEnds a s p ++ matchEnds b s p
  | .cat a b, s, p =>
      (matchEnds a s p).flatMap (fun n =>
        (matchEnds b (s.drop n) (if n = 0 then p else (s.take n).getLast?)).map
          (fun m => n + m))
  | .wb, s, p => if isBoundary p s.head? then [0] else []

/-- One scanning step of `re.findall`: try a match at every position left to
right; count it and resume after its end (non-overlapping), advancing one
position on a zero-width match or on failure.  Fuel `s.length + 1` bounds
the number of scan steps. -/
def scanCount : Nat → Rx → List Char → Option Char → Nat
  | 0, _, _, _ => 0
  | Nat.succ fuel, r, s, p =>
    match s, (matchEnds r s p).head? with
    | [], some _ => 1
    | [], none => 0
    | x :: rest, none => scanCount fuel r rest (some x)
    | x :: rest, some 0 => 1 + scanCount fuel r rest (some x)
    | x :: rest, some (Nat.succ n) =>
        1 + scanCount fuel r (rest.drop n) (((x :: rest).take (n + 1)).getLast?)

/-- Number of matches `pattern.findall(content)` returns. -/
def findallCount (r : Rx) (s : List Char) : Nat :=
  scanCount (s.length + 1) r s none

/-! ## The pattern catalog of `_initialize_rule_based` -/

/-- `r'\b( w1 | w2 | ... )\b'` -/
def wordAlt (ws : List String) : Rx :=
  Rx.cat Rx.wb (Rx.cat (Rx.altList (ws.map Rx.str)) Rx.wb)

/-- `r'\b( k1 |...).*( t1 |...)\b'` -/
def keyDotStarTail (ks ts : List String) : Rx :=
  Rx.cat Rx.wb (Rx.cat (Rx.altList (ks.map Rx.str))
    (Rx.cat Rx.dotStar (Rx.cat (Rx.altList (ts.map Rx.str)) Rx.wb)))

/-- `self.toxic_patterns` / `self.compiled_patterns` (same order as the
source list; index 0 to 5). -/
def toxicPatterns : List Rx :=
  [ wordAlt ["fuck", "shit", "damn", "bitch", "asshole", "bastard"],
    wordAlt ["nigger", "faggot", "retard", "cunt"],
    wordAlt ["kill yourself", "kys", "die"],
    keyDotStarTail ["hate", "despise"] ["you", "him", "her", "them"],
    keyDotStarTail ["stupid", "idiot", "moron", "dumb"] ["person", "people", "you"],
    wordAlt ["spam", "troll", "harassment"] ]

/-- `ToxicityDetector._find_toxic_patterns`: one entry per match occurrence,
tagged with the index of the pattern that produced it (the matched text
itself is dropped — downstream code only uses the index and the number of
entries). -/
def findToxicPatterns (content : List Char) : List Nat :=
  (List.range toxicPatterns.length).flatMap (fun i =>
    List.replicate (findallCount ((toxicPatterns.drop i).headD Rx.eps) content) i)

/-- `self.toxicity_categories` of the rule-based detector: category name to
pattern indices.  (Note: the source maps `toxic_behavior` to index 6, but
`toxic_patterns` only has indices 0..5, so `toxic_behavior` can never
match; the spam/troll/harassment pattern at index 5 counts as
`harassment`.) -/
def ruleCategories : List (String × List Nat) :=
  [ ("profanity", [0, 1]),
    ("hate_speech", [2, 3]),
    ("harassment", [4, 5]),
    ("toxic_behavior", [6]) ]

/-- `self.severity_weights`. -/
def severityWeights : List (String × ℚ) :=
  [ ("profanity", 3/10),
    ("hate_speech", 9/10),
    ("harassment", 7/10),
    ("toxic_behavior", 1/2) ]

/-- Association-list lookup (Python dict indexing; the `KeyError` case is
given the dummy value 0 — all categories iterated by the scoring loop are
keys of `severity_weights`, so it cannot occur). -/
def lookupQ : List (String × ℚ) → String → ℚ
  | [], _ => 0
  | p :: rest, c => if p.1 = c then p.2 else lookupQ rest c

/-- `self.severity_weights[category]`. -/
def weightOf (c : String) : ℚ := lookupQ severityWeights c

/-- Python string comparison `a <= b`: lexicographic on code points. -/
def charListLe : List Char → List Char → Bool
  | [], _ => true
  | _ :: _, [] => false
  | a :: as, b :: bs =>
      a.toNat < b.toNat || (a.toNat = b.toNat && charListLe as bs)

/-- The order `sorted(...)` sorts by (ascending). -/
def pyStrLe (a b : String) : Bool := charListLe a.toList b.toList

/-- `sorted` as a relation usable by `List.insertionSort`. -/
def PyLe (a b : String) : Prop := pyStrLe a b = true

instance : DecidableRel PyLe := fun a b => instDecidableEqBool (pyStrLe a b) true

/-! ## `_calculate_toxicity_score`

`category_scores` is a Python dict (insertion-ordered association list) and
`identified_categories` a set (duplicate-free list); both are built by the
double loop over the matches and the category table. -/

structure CalcState where
  scores : List (String × ℚ)
  identified : List String
deriving Repr

/-- `if category not in d: d[category] = 0; d[category] += w`. -/
def dictAdd (d : List (String × ℚ)) (c : String) (w : ℚ) : List (String × ℚ) :=
  if d.any (fun p => p.1 = c) then
    d.map (fun p => if p.1 = c then (p.1, p.2 + w) else p)
  else d ++ [(c, w)]

/-- `identified_categories.add(category)`. -/
def setInsert (l : List String) (c : String) : List String :=
  if c ∈ l then l else l ++ [c]

/-- Inner loop body of `_calculate_toxicity_score` for one match entry. -/
def processMatch (st : CalcState) (idx : Nat) : CalcState :=
  ruleCategories.foldl
    (fun st p =>
      if p.2.contains idx then
        { scores := dictAdd st.scores p.1 (weightOf p.1),
          identified := setInsert st.identified p.1 }
      else st)
    st

/-- `ToxicityDetector._calculate_toxicity_score` (`ms` is the `matches`
list). -/
def calculateToxicityScore (ms : List Nat) : ℚ × List String :=
  if ms.isEmpty then (0, [])
  else
    let st := ms.foldl processMatch ⟨[], []⟩
    let final_score :=
      if st.scores.isEmpty then (0 : ℚ)
      else min 1 (((st.scores.map Prod.snd).sum) / st.scores.length)
    (final_score, List.insertionSort PyLe st.identified)

/-! ## Rounding

Python `round(x, k)` rounds half to even; it is embedded as ideal decimal
rounding of the exact rational value. -/

/-- Round half to even to an integer. -/
def roundHalfEven (x : ℚ) : ℤ :=
  let n := ⌊x⌋
  if x - n < 1/2 then n
  else if 1/2 < x - n then n + 1
  else if Even n then n else n + 1

/-- `round(x, 3)`. -/
def round3 (x : ℚ) : ℚ := (roundHalfEven (1000 * x) : ℚ) / 1000

/-- `round(x, 4)`. -/
def round4 (x : ℚ) : ℚ := (roundHalfEven (10000 * x) : ℚ) / 10000

/-! ## `_analyze_toxicity_categories_ml` -/

/-- Python substring test `w in s`: `w` occurs contiguously in `s`. -/
def containsSub (s w : List Char) : Bool :=
  match s with
  | [] => w.isEmpty
  | _ :: rest => w.isPrefixOf s || containsSub rest w

def profanityKeywords : List String := ["fuck", "shit", "damn", "bitch", "asshole"]
def hateKeywords : List String := ["hate", "kill", "die", "murder"]
def harassmentKeywords : List String := ["stupid", "idiot", "moron", "loser", "pathetic"]
def threatKeywords : List String := ["kill you", "hurt you", "destroy you", "eliminate"]

/-- `ToxicityDetector._analyze_toxicity_categories_ml`. -/
def analyzeToxicityCategoriesMl (content : List Char) (toxicity_score : ℚ) :
    List String :=
  let content_lower := pyLower content
  if toxicity_score > 3/10 then
    let categories : List String := []
    let categories :=
      if profanityKeywords.any (fun w => containsSub content_lower w.toList)
      then categories ++ ["profanity"] else categories
    let categories :=
      if hateKeywords.any (fun w => containsSub content_lower w.toList)
      then categories ++ ["hate_speech"] else categories
    let categories :=
      if harassmentKeywords.any (fun w => containsSub content_lower w.toList)
      then categories ++ ["harassment"] else categories
    let categories :=
      if threatKeywords.any (fun w => containsSub content_lower w.toList)
      then categories ++ ["threat"] else categories
    if categories.isEmpty ∧ toxicity_score > 3/5 then
      categories ++ ["general_toxicity"]
    else categories
  else []

/-! ## The result dictionary and detector state -/

/-- The dictionary returned by `check_toxicity`.  `timestamp` (a wall-clock
read) is not part of the functional model; `threshold_used` and `raw_score`
are only present in the ML-path dictionary, hence `Option`. -/
structure Verdict where
  is_toxic : Bool
  toxicity_score : ℚ
  confidence : ℚ
  categories : List String
  content_length : Nat
  detector_version : String
  model_used : String
  threshold_used : Option ℚ
  raw_score : Option ℚ
deriving Repr, DecidableEq

/-- Exceptions that can escape `check_toxicity`. -/
inductive PyErr where
  | valueError
  | attributeError
deriving Repr, DecidableEq

/-- The attributes of `ToxicityDetector` the claims depend on.
`optimal_threshold` is `none` when the attribute was never assigned (the
Hugging-Face-hub branch of `_initialize_ml_model` does not set it; the ML
path then reads it through `getattr(self, 'optimal_threshold', 0.5)`).
`hasRulePatterns` records whether `_initialize_rule_based` ever ran, i.e.
whether `compiled_patterns` / `severity_weights` exist as attributes:
touching them on a detector whose ML initialization succeeded raises
`AttributeError`. -/
structure Detector where
  use_ml_model : Bool
  optimal_threshold : Option ℚ
  hasRulePatterns : Bool
deriving Repr, DecidableEq

/-- Outcome of the opaque model-loading work inside the `try` of
`_initialize_ml_model`: on success the configuration may or may not assign
`optimal_threshold`; any exception takes the `except` branch. -/
inductive MlInit where
  | success (threshold : Option ℚ)
  | failure
deriving Repr, DecidableEq

/-- `ToxicityDetector.__init__` (with `_initialize_ml_model` /
`_initialize_rule_based` inlined; their opaque I/O outcome is the `mlInit`
parameter).  The `except` branch of `_initialize_ml_model` sets
`self.use_ml_model = False` and runs `_initialize_rule_based`. -/
def initDetector (use_ml_model transformersAvailable : Bool) (mlInit : MlInit) :
    Detector :=
  let useMl := use_ml_model && transformersAvailable
  if useMl then
    match mlInit with
    | .success t =>
        { use_ml_model := true, optimal_threshold := t, hasRulePatterns := false }
    | .failure =>
        { use_ml_model := false, optimal_threshold := none, hasRulePatterns := true }
  else
    { use_ml_model := false, optimal_threshold := none, hasRulePatterns := true }

/-! ## The two scoring paths -/

/-- `ToxicityDetector._check_toxicity_rule_based`, except for the attribute
accesses, which `checkToxicityRuleBasedD` guards. -/
def checkToxicityRuleBased (content : List Char) : Verdict :=
  let clean_content := cleanContent content
  let ms := findToxicPatterns clean_content
  let sc := calculateToxicityScore ms
  let is_toxic := sc.1 > 1/2
  let confidence := min (9/10) (3/10 + (ms.length : ℚ) * (1/5))
  { is_toxic := is_toxic,
    toxicity_score := round3 sc.1,
    confidence := round3 confidence,
    categories := sc.2,
    content_length := content.length,
    detector_version := "1.0.0-rule-based",
    model_used := "rule-based-patterns",
    threshold_used := none,
    raw_score := none }

/-- `_check_toxicity_rule_based` as invoked on a detector `d`: its helper
`_find_toxic_patterns` reads `self.compiled_patterns`, which exists only if
`_initialize_rule_based` ran; otherwise Python raises `AttributeError`. -/
def checkToxicityRuleBasedD (d : Detector) (content : List Char) :
    Except PyErr Verdict :=
  if d.hasRulePatterns then .ok (checkToxicityRuleBased content)
  else .error .attributeError

/-- The `try`-block body of `ToxicityDetector._check_toxicity_ml` given the
probability `p = float(expit(model_logit))` produced by the opaque model
call. -/
def mkMlVerdict (d : Detector) (content : List Char) (p : ℚ) : Verdict :=
  let toxicity_score := max 0 (min 1 p)
  let toxicity_threshold := d.optimal_threshold.getD (1/2)
  let is_toxic := toxicity_score ≥ toxicity_threshold
  let threshold_distance := |toxicity_score - toxicity_threshold|
  let confidence := min 1 (max (threshold_distance * 2) 0)
  let confidence := max confidence (1 - |1/2 - toxicity_score| * 2)
  let confidence :=
    if toxicity_score ≤ 1/10 ∨ toxicity_score ≥ 9/10 then max confidence (17/20)
    else confidence
  let confidence := min 1 confidence
  let categories := analyzeToxicityCategoriesMl (cleanContentForMl content) toxicity_score
  { is_toxic := is_toxic,
    toxicity_score := round3 toxicity_score,
    confidence := round3 confidence,
    categories := categories,
    content_length := content.length,
    detector_version := "2.0.5-ml-fast",
    -- `getattr(self, 'model_name_loaded', 'toxicity-model-fast')`: the label
    -- is opaque configuration; the default is used here.
    model_used := "toxicity-model-fast",
    threshold_used := some toxicity_threshold,
    raw_score := some (round4 toxicity_score) }

/-- `ToxicityDetector._check_toxicity_ml`.  `raw : Except Unit ℚ` is the
outcome of the opaque classifier invocation (tokenizer + model + sigmoid):
`.ok p` is the resulting probability, `.error ()` an exception raised inside
the `try`.  The `except` branch calls `_check_toxicity_rule_based` and
assigns nothing to `self`, so the returned detector state is unchanged in
both branches. -/
def checkToxicityMl (d : Detector) (content : List Char) (raw : Except Unit ℚ) :
    Except PyErr Verdict × Detector :=
  match raw with
  | .ok p => (.ok (mkMlVerdict d content p), d)
  | .error _ => (checkToxicityRuleBasedD d content, d)

/-- The value passed to `check_toxicity` (Python is dynamically typed). -/
inductive PyInput where
  | noneVal
  | str (s : List Char)
  | nonString
deriving Repr, DecidableEq

/-- `ToxicityDetector.check_toxicity`: `if not content or not
isinstance(content, str): raise ValueError(...)` — for a string, `not
content` is true exactly on the empty string; any non-string fails the
`isinstance` test (`None` is already falsy).  Then dispatch on
`self.use_ml_model`.  The returned detector is the post-call state. -/
def checkToxicity (d : Detector) (input : PyInput) (raw : Except Unit ℚ) :
    Except PyErr Verdict × Detector :=
  match input with
  | .str s =>
      if s.isEmpty then (.error .valueError, d)
      else if d.use_ml_model then checkToxicityMl d s raw
      else (checkToxicityRuleBasedD d s, d)
  | _ => (.error .valueError, d)

/-! ## Basic lemmas about rounding -/

theorem roundHalfEven_ge_floor (x : ℚ) : ⌊x⌋ ≤ roundHalfEven x := by
  simp only [roundHalfEven]
  split
  · exact le_refl _
  · split
    · omega
    · split
      · exact le_refl _
      · omega

theorem roundHalfEven_le_ceil (x : ℚ) : roundHalfEven x ≤ ⌊x⌋ + 1 := by
  simp only [roundHalfEven]
  split
  · omega
  · split
    · omega
    · split
      · omega
      · omega

theorem roundHalfEven_intCast (n : ℤ) : roundHalfEven (n : ℚ) = n := by
  unfold roundHalfEven
  rw [Int.floor_intCast]
  norm_num

/-- If `m/1000 ≤ x` with `m` an integer then `m/1000 ≤ round(x, 3)`. -/
theorem round3_ge (m : ℤ) (x : ℚ) (h : (m : ℚ) / 1000 ≤ x) :
    (m : ℚ) / 1000 ≤ round3 x := by
  unfold round3
  have hm : m ≤ ⌊1000 * x⌋ := by
    rw [Int.le_floor]
    linarith
  have := roundHalfEven_ge_floor (1000 * x)
  have : (m : ℚ) ≤ (roundHalfEven (1000 * x) : ℚ) := by exact_mod_cast le_trans hm this
  linarith

/-- If `x ≤ m/1000` with `m` an integer then `round(x, 3) ≤ m/1000`. -/
theorem round3_le (m : ℤ) (x : ℚ) (h : x ≤ (m : ℚ) / 1000) :
    round3 x ≤ (m : ℚ) / 1000 := by
  unfold round3
  have hx : 1000 * x ≤ (m : ℚ) := by linarith
  rcases lt_or_eq_of_le hx with hlt | heq
  · have hf : ⌊1000 * x⌋ + 1 ≤ m := by
      have : ⌊1000 * x⌋ < m := Int.floor_lt.mpr (by exact_mod_cast hlt)
      omega
    have := roundHalfEven_le_ceil (1000 * x)
    have hle : roundHalfEven (1000 * x) ≤ m := le_trans this hf
    have : (roundHalfEven (1000 * x) : ℚ) ≤ (m : ℚ) := by exact_mod_cast hle
    linarith
  · rw [heq, show ((m : ℚ)) = ((m : ℤ) : ℚ) by norm_num, roundHalfEven_intCast]

theorem round3_eq_div (x : ℚ) : ∃ k : ℤ, round3 x = (k : ℚ) / 1000 :=
  ⟨roundHalfEven (1000 * x), rfl⟩

theorem round3_zero : round3 0 = 0 := by
  unfold round3
  rw [mul_zero, show ((0 : ℚ)) = ((0 : ℤ) : ℚ) by norm_num, roundHalfEven_intCast]
  norm_num

/-! ## The order used by `sorted` -/

theorem charListLe_total (a b : List Char) :
    charListLe a b = true ∨ charListLe b a = true := by
  induction a generalizing b with
  | nil => left; rfl
  | cons x xs ih =>
    cases b with
    | nil => right; rfl
    | cons y ys =>
      rcases Nat.lt_trichotomy x.toNat y.toNat with h | h | h
      · left; simp [charListLe, h]
      · rcases ih ys with h2 | h2
        · left; simp [charListLe, h, h2]
        · right; simp [charListLe, h.symm, h2]
      · right; simp [charListLe, h]

theorem charListLe_trans (a b c : List Char) (hab : charListLe a b = true)
    (hbc : charListLe b c = true) : charListLe a c = true := by
  induction a generalizing b c with
  | nil => rfl
  | cons x xs ih =>
    cases b with
    | nil => simp [charListLe] at hab
    | cons y ys =>
      cases c with
      | nil => simp [charListLe] at hbc
      | cons z zs =>
        simp only [charListLe, Bool.or_eq_true, Bool.and_eq_true, decide_eq_true_eq] at hab hbc ⊢
        rcases hab with h1 | ⟨h1, h1r⟩
        · rcases hbc with h2 | ⟨h2, h2r⟩
          · left; omega
          · left; omega
        · rcases hbc with h2 | ⟨h2, h2r⟩
          · left; omega
          · right; exact ⟨by omega, ih ys zs h1r h2r⟩

theorem charToNat_injective (a b : Char) (h : a.toNat = b.toNat) : a = b :=
  Char.eq_of_val_eq (UInt32.ext h)

theorem charListLe_antisymm (a b : List Char) (hab : charListLe a b = true)
    (hba : charListLe b a = true) : a = b := by
  induction a generalizing b with
  | nil =>
    cases b with
    | nil => rfl
    | cons y ys => simp [charListLe] at hba
  | cons x xs ih =>
    cases b with
    | nil => simp [charListLe] at hab
    | cons y ys =>
      simp only [charListLe, Bool.or_eq_true, Bool.and_eq_true, decide_eq_true_eq] at hab hba
      rcases hab with h1 | ⟨h1, h1r⟩
      · rcases hba with h2 | ⟨h2, h2r⟩
        · omega
        · omega
      · rcases hba with h2 | ⟨h2, h2r⟩
        · omega
        · rw [charToNat_injective x y h1, ih ys h1r h2r]

instance : IsTotal String PyLe :=
  ⟨fun a b => charListLe_total a.toList b.toList⟩

instance : IsTrans String PyLe :=
  ⟨fun a b c => charListLe_trans a.toList b.toList c.toList⟩

instance : IsAntisymm String PyLe :=
  ⟨fun a b hab hba =>
    String.ext (charListLe_antisymm a.toList b.toList hab hba)⟩

/-! ## Characterizing `_calculate_toxicity_score`

The claims describe the score as a mean of per-category accumulated
weights; the following definitions state that formula directly, and
`calculateToxicityScore_eq` proves the source loop computes it. -/

/-- The category names, in table order. -/
def catNames : List String := ruleCategories.map Prod.fst

/-- The category owning pattern index `i` (read off `ruleCategories`; the
index lists are disjoint, so the owner is unique). -/
def catOfIdx : Nat → Option String
  | 0 | 1 => some "profanity"
  | 2 | 3 => some "hate_speech"
  | 4 | 5 => some "harassment"
  | 6 => some "toxic_behavior"
  | _ => none

/-- Number of match occurrences in `ms` belonging to category `c`. -/
def matchCountFor (ms : List Nat) (c : String) : Nat :=
  (ms.filter (fun i => catOfIdx i = some c)).length

/-- The categories with at least one match, in table order. -/
def specMatched (ms : List Nat) : List String :=
  catNames.filter (fun c => 0 < matchCountFor ms c)

/-- Sum of the accumulated per-category weights: each match occurrence
contributes its category's severity weight once. -/
def specTotal (ms : List Nat) : ℚ :=
  ((specMatched ms).map (fun c => weightOf c * (matchCountFor ms c : ℚ))).sum

/-- The claimed aggregate score: mean of accumulated weights over the
matched categories, clamped at 1; 0 when nothing matched. -/
def specScore (ms : List Nat) : ℚ :=
  if specMatched ms = [] then 0
  else min 1 (specTotal ms / ((specMatched ms).length : ℚ))

/-- The matched categories in first-occurrence order (the insertion order
of the Python dict / set). -/
def firstOcc (ms : List Nat) : List String :=
  ms.foldl
    (fun acc i =>
      match catOfIdx i with
      | some c => setInsert acc c
      | none => acc)
    []

theorem processMatch_eq (st : CalcState) (i : Nat) :
    processMatch st i =
      match catOfIdx i with
      | none => st
      | some c => ⟨dictAdd st.scores c (weightOf c), setInsert st.identified c⟩ := by
  rcases i with _|_|_|_|_|_|_|n <;> rfl

theorem catOfIdx_mem_catNames (i : Nat) (c : String) (h : catOfIdx i = some c) :
    c ∈ catNames := by
  rcases i with _|_|_|_|_|_|_|n <;> simp [catOfIdx] at h <;>
    simp [catNames, ruleCategories, ← h]

theorem setInsert_mem (l : List String) (c a : String) :
    a ∈ setInsert l c ↔ a ∈ l ∨ a = c := by
  unfold setInsert
  split
  · rename_i h
    constructor
    · exact fun h2 => Or.inl h2
    · rintro (h2 | rfl)
      · exact h2
      · exact h
  · simp

theorem setInsert_nodup (l : List String) (c : String) (h : l.Nodup) :
    (setInsert l c).Nodup := by
  unfold setInsert
  split
  · exact h
  · rename_i hc
    simp [List.nodup_append, h, hc]

theorem firstOcc_append (l : List Nat) (a : Nat) :
    firstOcc (l ++ [a]) =
      match catOfIdx a with
      | some c => setInsert (firstOcc l) c
      | none => firstOcc l := by
  unfold firstOcc
  rw [List.foldl_append]
  rfl

theorem matchCountFor_append (l : List Nat) (a : Nat) (c : String) :
    matchCountFor (l ++ [a]) c =
      matchCountFor l c + (if catOfIdx a = some c then 1 else 0) := by
  unfold matchCountFor
  rw [List.filter_append, List.length_append]
  congr 1
  by_cases h : catOfIdx a = some c <;> simp [h]

theorem firstOcc_mem (ms : List Nat) (c : String) :
    c ∈ firstOcc ms ↔ 0 < matchCountFor ms c := by
  induction ms using List.reverseRecOn with
  | nil => simp [firstOcc, matchCountFor]
  | append_singleton l a ih =>
    rw [firstOcc_append, matchCountFor_append]
    cases h : catOfIdx a with
    | none => simpa [h] using ih
    | some c₀ =>
      rw [setInsert_mem]
      by_cases hc : c₀ = c
      · subst hc
        simp [ih]
      · have hne : ¬ (some c₀ = some c) := by simpa using hc
        simp only [hne, if_false, Nat.add_zero, ih]
        constructor
        · rintro (h2 | h2)
          · exact h2
          · exact absurd h2.symm hc
        · exact fun h2 => Or.inl h2

theorem firstOcc_nodup (ms : List Nat) : (firstOcc ms).Nodup := by
  induction ms using List.reverseRecOn with
  | nil => simp [firstOcc]
  | append_singleton l a ih =>
    rw [firstOcc_append]
    cases h : catOfIdx a with
    | none => exact ih
    | some c₀ => exact setInsert_nodup _ _ ih

/-- The state of the scoring loop after processing `ms`: the dict keys are
the matched categories in first-occurrence order, each carrying its
severity weight times its number of match occurrences, and the identified
set is exactly those categories. -/
theorem foldl_processMatch (ms : List Nat) :
    ms.foldl processMatch ⟨[], []⟩ =
      ⟨(firstOcc ms).map (fun c => (c, weightOf c * (matchCountFor ms c : ℚ))),
        firstOcc ms⟩ := by
  induction ms using List.reverseRecOn with
  | nil => rfl
  | append_singleton l a ih =>
    rw [List.foldl_append, List.foldl_cons, List.foldl_nil, ih, processMatch_eq,
      firstOcc_append]
    simp only [matchCountFor_append]
    cases h : catOfIdx a with
    | none =>
      simp [h]
    | some c₀ =>
      simp only [h, Option.some.injEq]
      congr 1
      by_cases hmem : c₀ ∈ firstOcc l
      · have hset : setInsert (firstOcc l) c₀ = firstOcc l := by
          unfold setInsert
          rw [if_pos hmem]
        rw [hset]
        have hany : ((firstOcc l).map
            (fun c => (c, weightOf c * (matchCountFor l c : ℚ)))).any
              (fun p => p.1 = c₀) = true := by
          simp only [List.any_eq_true]
          exact ⟨(c₀, weightOf c₀ * (matchCountFor l c₀ : ℚ)),
            List.mem_map_of_mem _ hmem, by simp⟩
        unfold dictAdd
        rw [if_pos hany, List.map_map]
        apply List.map_congr_left
        intro c _
        by_cases hc : c = c₀
        · subst hc
          simp only [Function.comp_apply, ite_true, if_pos rfl, Prod.mk.injEq,
            true_and]
          push_cast
          ring
        · have hc2 : ¬ (c₀ = c) := fun h2 => hc h2.symm
          simp [Function.comp, hc, hc2]
      · have hset : setInsert (firstOcc l) c₀ = firstOcc l ++ [c₀] := by
          unfold setInsert
          rw [if_neg hmem]
        rw [hset]
        have hany : ((firstOcc l).map
            (fun c => (c, weightOf c * (matchCountFor l c : ℚ)))).any
              (fun p => p.1 = c₀) = false := by
          simp only [List.any_eq_false, decide_eq_true_eq]
          intro p hp
          rcases List.mem_map.mp hp with ⟨c, hc, rfl⟩
          exact fun h2 => hmem (h2 ▸ hc)
        unfold dictAdd
        rw [if_neg (by rw [hany]; simp), List.map_append]
        congr 1
        · apply List.map_congr_left
          intro c hc
          have hne : ¬ (c₀ = c) := fun h2 => hmem (h2 ▸ hc)
          simp [hne]
        · have hcnt : matchCountFor l c₀ = 0 := by
            by_contra h2
            exact hmem ((firstOcc_mem l c₀).mpr (Nat.pos_of_ne_zero h2))
          simp [hcnt]

theorem specMatched_nodup (ms : List Nat) : (specMatched ms).Nodup := by
  have h : catNames.Nodup := by decide
  exact h.filter _

theorem pos_matchCountFor_mem_catNames (ms : List Nat) (c : String)
    (h : 0 < matchCountFor ms c) : c ∈ catNames := by
  unfold matchCountFor at h
  rcases List.exists_mem_of_length_pos h with ⟨i, hi⟩
  rcases List.mem_filter.mp hi with ⟨_, hdec⟩
  exact catOfIdx_mem_catNames i c (of_decide_eq_true hdec)

theorem firstOcc_perm_specMatched (ms : List Nat) :
    List.Perm (firstOcc ms) (specMatched ms) := by
  rw [List.perm_ext_iff_of_nodup (firstOcc_nodup ms) (specMatched_nodup ms)]
  intro c
  rw [firstOcc_mem]
  simp only [specMatched, List.mem_filter, decide_eq_true_eq]
  constructor
  · intro h
    exact ⟨pos_matchCountFor_mem_catNames ms c h, h⟩
  · exact fun h => h.2

/-- `_calculate_toxicity_score` computes the claimed formula: the dict-based
loop yields the mean of per-category accumulated weights over exactly the
matched categories, clamped at 1, and the sorted list of those categories. -/
theorem calculateToxicityScore_eq (ms : List Nat) :
    calculateToxicityScore ms =
      (specScore ms, List.insertionSort PyLe (specMatched ms)) := by
  have hperm := firstOcc_perm_specMatched ms
  have hsort : List.insertionSort PyLe (firstOcc ms) =
      List.insertionSort PyLe (specMatched ms) :=
    List.eq_of_perm_of_sorted
      (((List.perm_insertionSort PyLe (firstOcc ms)).trans hperm).trans
        (List.perm_insertionSort PyLe (specMatched ms)).symm)
      (List.sorted_insertionSort PyLe (firstOcc ms))
      (List.sorted_insertionSort PyLe (specMatched ms))
  by_cases hms : ms.isEmpty
  · have : ms = [] := by
      cases ms with
      | nil => rfl
      | cons x xs => simp at hms
    subst this
    rfl
  · have hms2 : ms.isEmpty = false := by
      cases ms with
      | nil => simp at hms
      | cons x xs => rfl
    by_cases hfo : firstOcc ms = []
    · have hsm : specMatched ms = [] := by
        rw [hfo] at hperm
        exact hperm.nil_eq.symm
      simp only [calculateToxicityScore, hms2, Bool.false_eq_true, if_false,
        foldl_processMatch, hfo, hsm, List.map_nil, List.isEmpty_nil, if_true,
        specScore, if_pos rfl]
    · have hsm : specMatched ms ≠ [] := by
        intro h2
        rw [h2] at hperm
        exact hfo hperm.eq_nil
      have hne : ((firstOcc ms).map
          (fun c => (c, weightOf c * (matchCountFor ms c : ℚ)))).isEmpty = false := by
        simp [List.isEmpty_iff, hfo]
      have hsum : (((firstOcc ms).map
          (fun c => (c, weightOf c * (matchCountFor ms c : ℚ)))).map Prod.snd).sum
            = specTotal ms := by
        rw [List.map_map]
        exact (hperm.map fun c => weightOf c * (matchCountFor ms c : ℚ)).sum_eq
      have hlen : ((firstOcc ms).map
          (fun c => (c, weightOf c * (matchCountFor ms c : ℚ)))).length
            = (specMatched ms).length := by
        rw [List.length_map]
        exact hperm.length_eq
      simp only [calculateToxicityScore, hms2, Bool.false_eq_true, if_false,
        foldl_processMatch, hne, hsum, hlen, hsort, specScore, if_neg hsm]

/-! ## Example detector states -/

/-- `ToxicityDetector(use_ml_model=False)`. -/
def patternDetector : Detector := initDetector false false MlInit.failure

/-- A detector whose ML initialization succeeded with a configured
threshold of 0.5 (`_initialize_rule_based` never ran). -/
def mlDetector : Detector := initDetector true true (MlInit.success (some (1/2)))

/-! ## Further helper lemmas -/

theorem checkToxicityRuleBased_score (content : List Char) :
    (checkToxicityRuleBased content).toxicity_score =
      round3 (specScore (findToxicPatterns (cleanContent content))) := by
  simp only [checkToxicityRuleBased, calculateToxicityScore_eq]

theorem checkToxicityRuleBased_categories (content : List Char) :
    (checkToxicityRuleBased content).categories =
      List.insertionSort PyLe (specMatched (findToxicPatterns (cleanContent content))) := by
  simp only [checkToxicityRuleBased, calculateToxicityScore_eq]

theorem weightOf_ge (c : String) (h : c ∈ catNames) : 3/10 ≤ weightOf c := by
  simp only [catNames, ruleCategories, List.map_cons, List.map_nil,
    List.mem_cons, List.not_mem_nil, or_false] at h
  rcases h with rfl | rfl | rfl | rfl <;>
    norm_num +decide [weightOf, severityWeights, lookupQ]

/-- Any nonempty matched-category set forces a score of at least 0.3. -/
theorem specScore_ge (ms : List Nat) (h : specMatched ms ≠ []) :
    3/10 ≤ specScore ms := by
  unfold specScore
  rw [if_neg h]
  have hlen : 0 < ((specMatched ms).length : ℚ) := by
    have := List.length_pos.mpr h
    exact_mod_cast this
  have hterm : ∀ x ∈ (specMatched ms).map
      (fun c => weightOf c * (matchCountFor ms c : ℚ)), (3:ℚ)/10 ≤ x := by
    intro x hx
    rcases List.mem_map.mp hx with ⟨c, hc, rfl⟩
    rcases List.mem_filter.mp hc with ⟨hcn, hcnt⟩
    have hw := weightOf_ge c hcn
    have h1 : (1:ℚ) ≤ (matchCountFor ms c : ℚ) := by
      have := of_decide_eq_true hcnt
      exact_mod_cast this
    calc (3:ℚ)/10 ≤ weightOf c := hw
      _ = weightOf c * 1 := by ring
      _ ≤ weightOf c * (matchCountFor ms c : ℚ) := by
          apply mul_le_mul_of_nonneg_left h1
          linarith
  have hsum := List.card_nsmul_le_sum
    ((specMatched ms).map (fun c => weightOf c * (matchCountFor ms c : ℚ)))
    ((3:ℚ)/10) hterm
  rw [List.length_map, nsmul_eq_mul] at hsum
  have hdiv : (3:ℚ)/10 ≤ specTotal ms / ((specMatched ms).length : ℚ) := by
    rw [le_div_iff₀ hlen]
    calc (3:ℚ)/10 * ((specMatched ms).length : ℚ)
        = ((specMatched ms).length : ℚ) * ((3:ℚ)/10) := by ring
      _ ≤ specTotal ms := hsum
  exact le_min (by norm_num) hdiv

/-- The ML category heuristic only emits categories from its fixed list, in
that fixed order. -/
theorem analyzeMl_sublist (content : List Char) (s : ℚ) :
    List.Sublist (analyzeToxicityCategoriesMl content s)
      ["profanity", "hate_speech", "harassment", "threat", "general_toxicity"] := by
  unfold analyzeToxicityCategoriesMl
  split
  · cases h1 : profanityKeywords.any
        (fun w => containsSub (pyLower content) w.toList) <;>
      cases h2 : hateKeywords.any
        (fun w => containsSub (pyLower content) w.toList) <;>
      cases h3 : harassmentKeywords.any
        (fun w => containsSub (pyLower content) w.toList) <;>
      cases h4 : threatKeywords.any
        (fun w => containsSub (pyLower content) w.toList) <;>
      simp only [h1, h2, h3, h4, if_true, if_false, List.nil_append,
        Bool.false_eq_true, List.isEmpty_nil, List.isEmpty_cons] <;>
      split <;> decide
  · exact List.nil_sublist _

/-! ## The claims -/

/-- C4: in the pattern path, every match occurrence adds its category's
severity weight to that category's accumulated weight, the aggregate score
is the mean of the accumulated weights over exactly the matched
categories, clamped at 1.0, and an empty match list yields score 0.0 with
no categories. -/
theorem C4_pattern_scoring (ms : List Nat) :
    calculateToxicityScore ms =
      (specScore ms, List.insertionSort PyLe (specMatched ms)) ∧
    (ms = [] → calculateToxicityScore ms = (0, [])) := by
  refine ⟨calculateToxicityScore_eq ms, fun h => ?_⟩
  subst h
  rfl

theorem C4_pattern_scoring_witness :
    calculateToxicityScore [] = (0, []) :=
  (C4_pattern_scoring []).2 rfl

/-- C2 (code bug): on a detector whose ML initialization succeeded,
`_initialize_rule_based` never ran, so the per-call fallback inside
`_check_toxicity_ml`'s `except` block touches the missing
`compiled_patterns` attribute and the call raises `AttributeError` instead
of returning a pattern-path verdict. -/
theorem C2_fallback_crashes :
    checkToxicity mlDetector (PyInput.str "hello".toList) (Except.error ()) =
      (Except.error PyErr.attributeError, mlDetector) := rfl

/-- C6: `is_toxic` is exactly `toxicity_score >= threshold_used` on the
classifier path (the boundary score equal to the threshold is toxic) and
exactly `toxicity_score > 0.5`, strictly, on the pattern path (a score of
exactly 0.5 is not toxic).  Both comparisons use the un-rounded score. -/
theorem C6_decision_rule (d : Detector) (content : List Char) (p : ℚ) :
    ((mkMlVerdict d content p).is_toxic =
      decide (d.optimal_threshold.getD (1/2) ≤ max 0 (min 1 p))) ∧
    ((checkToxicityRuleBased content).is_toxic =
      decide (1/2 <
        (calculateToxicityScore (findToxicPatterns (cleanContent content))).1)) ∧
    (max 0 (min 1 p) = d.optimal_threshold.getD (1/2) →
      (mkMlVerdict d content p).is_toxic = true) ∧
    ((calculateToxicityScore (findToxicPatterns (cleanContent content))).1 = 1/2 →
      (checkToxicityRuleBased content).is_toxic = false) := by
  refine ⟨rfl, rfl, fun h => ?_, fun h => ?_⟩
  · simp only [mkMlVerdict, h, decide_eq_true_eq]
    exact le_refl _
  · simp only [checkToxicityRuleBased, h, gt_iff_lt, decide_eq_false_iff_not]
    exact lt_irrefl _

theorem C6_decision_rule_witness :
    (max 0 (min 1 (1/2 : ℚ)) = mlDetector.optimal_threshold.getD (1/2) ∧
      (mkMlVerdict mlDetector "hello".toList (1/2)).is_toxic = true) ∧
    ((calculateToxicityScore (findToxicPatterns (cleanContent []))).1 = 1/2 → True) := by
  constructor
  · constructor
    · norm_num [mlDetector, initDetector]
    · exact (C6_decision_rule mlDetector "hello".toList (1/2)).2.2.1
        (by norm_num [mlDetector, initDetector])
  · exact fun _ => trivial

/-- C8: an ML failure during a call leaves the detector state (hence the
configured strategy) unchanged, so the next call still attempts the
classifier path, while a failure during construction permanently switches
the detector to the pattern strategy. -/
theorem C8_fallback_scope (d : Detector) (input : PyInput) (raw : Except Unit ℚ)
    (s : List Char) (p : ℚ) :
    ((checkToxicity d input raw).2 = d) ∧
    (d.use_ml_model = true → s ≠ [] →
      (checkToxicity d (PyInput.str s) (Except.ok p)).1 =
        Except.ok (mkMlVerdict d s p)) ∧
    ((initDetector true true MlInit.failure).use_ml_model = false ∧
      (initDetector true true MlInit.failure).hasRulePatterns = true) ∧
    (s ≠ [] →
      (checkToxicity (initDetector true true MlInit.failure) (PyInput.str s) raw).1 =
        checkToxicityRuleBasedD (initDetector true true MlInit.failure) s) := by
  refine ⟨?_, fun hml hs => ?_, ⟨rfl, rfl⟩, fun hs => ?_⟩
  · cases input with
    | str t =>
      simp only [checkToxicity]
      split
      · rfl
      · split
        · cases raw <;> rfl
        · rfl
    | noneVal => rfl
    | nonString => rfl
  · have : s.isEmpty = false := by
      cases s with
      | nil => exact absurd rfl hs
      | cons x xs => rfl
    simp [checkToxicity, this, hml, checkToxicityMl]
  · have : s.isEmpty = false := by
      cases s with
      | nil => exact absurd rfl hs
      | cons x xs => rfl
    simp [checkToxicity, this, initDetector]

theorem C8_fallback_scope_witness :
    (checkToxicity mlDetector (PyInput.str "hi".toList) (Except.error ())).2 =
        mlDetector ∧
      (checkToxicity mlDetector (PyInput.str "hi".toList) (Except.ok (1/2))).1 =
        Except.ok (mkMlVerdict mlDetector "hi".toList (1/2)) ∧
      (checkToxicity (initDetector true true MlInit.failure)
          (PyInput.str "hi".toList) (Except.error ())).1 =
        checkToxicityRuleBasedD (initDetector true true MlInit.failure) "hi".toList := by
  refine ⟨(C8_fallback_scope mlDetector (PyInput.str "hi".toList)
      (Except.error ()) "hi".toList (1/2)).1, ?_, ?_⟩
  · exact (C8_fallback_scope mlDetector (PyInput.str "hi".toList)
      (Except.error ()) "hi".toList (1/2)).2.1 rfl (by decide)
  · exact (C8_fallback_scope mlDetector (PyInput.str "hi".toList)
      (Except.error ()) "hi".toList (1/2)).2.2.2 (by decide)

/-- C9: on both paths the returned `toxicity_score` and `confidence` are
the 3-decimal roundings of the computed values (so each is an integer
multiple of 0.001), while `is_toxic` is decided on the un-rounded
score. -/
theorem C9_rounding (d : Detector) (content : List Char) (p : ℚ) :
    ((mkMlVerdict d content p).toxicity_score = round3 (max 0 (min 1 p)) ∧
      (∃ k : ℤ, (mkMlVerdict d content p).toxicity_score = (k : ℚ) / 1000) ∧
      (∃ k : ℤ, (mkMlVerdict d content p).confidence = (k : ℚ) / 1000) ∧
      (mkMlVerdict d content p).is_toxic =
        decide (d.optimal_threshold.getD (1/2) ≤ max 0 (min 1 p))) ∧
    ((checkToxicityRuleBased content).toxicity_score =
        round3 (calculateToxicityScore (findToxicPatterns (cleanContent content))).1 ∧
      (∃ k : ℤ, (checkToxicityRuleBased content).toxicity_score = (k : ℚ) / 1000) ∧
      (∃ k : ℤ, (checkToxicityRuleBased content).confidence = (k : ℚ) / 1000) ∧
      (checkToxicityRuleBased content).is_toxic =
        decide (1/2 <
          (calculateToxicityScore (findToxicPatterns (cleanContent content))).1)) :=
  ⟨⟨rfl, round3_eq_div _, round3_eq_div _, rfl⟩,
    ⟨rfl, round3_eq_div _, round3_eq_div _, rfl⟩⟩

/-- C10: in the pattern path the categories list is non-empty exactly when
the returned toxicity score is positive, and a non-empty categories list
forces a score of at least 0.3, the smallest severity weight. -/
theorem C10_categories_vs_score (content : List Char) :
    ((checkToxicityRuleBased content).categories ≠ [] ↔
      0 < (checkToxicityRuleBased content).toxicity_score) ∧
    ((checkToxicityRuleBased content).categories ≠ [] →
      3/10 ≤ (checkToxicityRuleBased content).toxicity_score) := by
  rw [checkToxicityRuleBased_score, checkToxicityRuleBased_categories]
  by_cases h : specMatched (findToxicPatterns (cleanContent content)) = []
  · have h0 : specScore (findToxicPatterns (cleanContent content)) = 0 := by
      unfold specScore
      rw [if_pos h]
    rw [h, h0, round3_zero]
    have hnil : List.insertionSort PyLe ([] : List String) = [] := rfl
    rw [hnil]
    constructor
    · simp
    · exact fun h2 => absurd rfl h2
  · have hscore := specScore_ge _ h
    have hr : (3:ℚ)/10 ≤ round3 (specScore (findToxicPatterns (cleanContent content))) := by
      have h300 : ((300 : ℤ) : ℚ) / 1000 ≤
          specScore (findToxicPatterns (cleanContent content)) := by
        push_cast
        linarith
      have h2 := round3_ge 300 (specScore (findToxicPatterns (cleanContent content))) h300
      push_cast at h2
      linarith
    have hsort : List.insertionSort PyLe
        (specMatched (findToxicPatterns (cleanContent content))) ≠ [] := by
      intro h2
      apply h
      have := List.perm_insertionSort PyLe
        (specMatched (findToxicPatterns (cleanContent content)))
      rw [h2] at this
      exact this.symm.eq_nil
    constructor
    · simp only [hsort, ne_eq, not_false_eq_true, true_iff]
      linarith
    · exact fun _ => hr

/-! ## The claimed confidence formula of the classifier path -/

def clamp01 (x : ℚ) : ℚ := max 0 (min 1 x)

/-- The confidence derivation as the specification words it: clamp to
`[0,1]` the maximum of `|s − t| × 2` and `1 − |0.5 − s| × 2`, then raise to
at least `0.85` when `s ≤ 0.1` or `s ≥ 0.9`. -/
def specConfidence (s t : ℚ) : ℚ :=
  let base := clamp01 (max (|s - t| * 2) (1 - |1/2 - s| * 2))
  if s ≤ 1/10 ∨ 9/10 ≤ s then max base (17/20) else base

theorem clamp01_nonneg (x : ℚ) : 0 ≤ clamp01 x := le_max_left 0 _

theorem clamp01_le_one (x : ℚ) : clamp01 x ≤ 1 :=
  max_le (by norm_num) (min_le_left 1 x)

/-- The let-chain of `_check_toxicity_ml` computes `specConfidence`. -/
theorem mlConfidence_eq (s t : ℚ) (hs0 : 0 ≤ s) (hs1 : s ≤ 1) :
    min 1
      (if s ≤ 1/10 ∨ 9/10 ≤ s then
        max (max (min 1 (max (|s - t| * 2) 0)) (1 - |1/2 - s| * 2)) (17/20)
      else max (min 1 (max (|s - t| * 2) 0)) (1 - |1/2 - s| * 2)) =
      specConfidence s t := by
  have ha : (0:ℚ) ≤ |s - t| * 2 := by positivity
  have habs : |1/2 - s| ≤ 1/2 := by
    rw [abs_le]
    constructor <;> linarith
  have hb0 : (0:ℚ) ≤ 1 - |1/2 - s| * 2 := by linarith
  have hb1 : 1 - |1/2 - s| * 2 ≤ 1 := by
    have := abs_nonneg (1/2 - s)
    linarith
  have hmax0 : max (|s - t| * 2) 0 = |s - t| * 2 := max_eq_left ha
  have hbase : max (min 1 (max (|s - t| * 2) 0)) (1 - |1/2 - s| * 2) =
      clamp01 (max (|s - t| * 2) (1 - |1/2 - s| * 2)) := by
    rw [hmax0]
    unfold clamp01
    rcases le_total (|s - t| * 2) 1 with h1 | h1
    · rw [min_eq_right h1, min_eq_right (max_le h1 hb1),
        max_eq_right (le_trans hb0 (le_max_right _ _))]
    · rw [min_eq_left h1, max_eq_left hb1, max_eq_left (hb1.trans h1),
        min_eq_left h1, max_eq_right (by norm_num : (0:ℚ) ≤ 1)]
  have hconf1 : max (min 1 (max (|s - t| * 2) 0)) (1 - |1/2 - s| * 2) ≤ 1 :=
    max_le (min_le_left _ _) hb1
  unfold specConfidence
  split
  · rw [min_eq_right (max_le hconf1 (by norm_num)), hbase]
  · rw [min_eq_right hconf1, hbase]

/-- C5: on the classifier path the returned confidence is (the 3-decimal
rounding of) the clamp to `[0,1]` of `max(|s − t|·2, 1 − |0.5 − s|·2)`,
raised to at least `0.85` whenever `s ≤ 0.1` or `s ≥ 0.9`; in particular an
extreme score always yields confidence `≥ 0.85`. -/
theorem C5_confidence (d : Detector) (content : List Char) (p : ℚ) :
    ((mkMlVerdict d content p).confidence =
      round3 (specConfidence (clamp01 p) (d.optimal_threshold.getD (1/2)))) ∧
    ((clamp01 p ≤ 1/10 ∨ 9/10 ≤ clamp01 p) →
      17/20 ≤ (mkMlVerdict d content p).confidence) := by
  have hs0 : 0 ≤ clamp01 p := clamp01_nonneg p
  have hs1 : clamp01 p ≤ 1 := clamp01_le_one p
  have hcode : (mkMlVerdict d content p).confidence =
      round3 (min 1
        (if clamp01 p ≤ 1/10 ∨ 9/10 ≤ clamp01 p then
          max (max (min 1 (max (|clamp01 p - d.optimal_threshold.getD (1/2)| * 2) 0))
            (1 - |1/2 - clamp01 p| * 2)) (17/20)
        else max (min 1 (max (|clamp01 p - d.optimal_threshold.getD (1/2)| * 2) 0))
          (1 - |1/2 - clamp01 p| * 2))) := rfl
  constructor
  · rw [hcode, mlConfidence_eq _ _ hs0 hs1]
  · intro hx
    rw [hcode, mlConfidence_eq _ _ hs0 hs1]
    have hbig : 17/20 ≤ specConfidence (clamp01 p) (d.optimal_threshold.getD (1/2)) := by
      unfold specConfidence
      rw [if_pos hx]
      exact le_max_right _ _
    have h850 : ((850 : ℤ) : ℚ) / 1000 ≤
        specConfidence (clamp01 p) (d.optimal_threshold.getD (1/2)) := by
      push_cast
      linarith
    have := round3_ge 850
      (specConfidence (clamp01 p) (d.optimal_threshold.getD (1/2))) h850
    push_cast at this
    linarith

theorem C5_confidence_witness :
    (9/10 ≤ clamp01 (19/20 : ℚ)) ∧
      17/20 ≤ (mkMlVerdict mlDetector "hello".toList (19/20)).confidence := by
  have h : (9:ℚ)/10 ≤ clamp01 (19/20) := by
    unfold clamp01
    norm_num
  exact ⟨h, (C5_confidence mlDetector "hello".toList (19/20)).2 (Or.inr h)⟩

/-- C3 (counterexample): on the classifier path, text containing both a
profanity keyword and a hate keyword yields the categories list
`["profanity", "hate_speech"]` in attribution order, which is NOT sorted
lexicographically (`"hate_speech" < "profanity"`). -/
theorem C3_counterexample :
    (checkToxicity mlDetector (PyInput.str "fuck hate".toList)
        (Except.ok (1/2))).1 =
      Except.ok
        { is_toxic := true, toxicity_score := 1/2, confidence := 1,
          categories := ["profanity", "hate_speech"], content_length := 9,
          detector_version := "2.0.5-ml-fast", model_used := "toxicity-model-fast",
          threshold_used := some (1/2), raw_score := some (1/2) } ∧
    ¬ List.Sorted PyLe ["profanity", "hate_speech"] := by
  constructor
  · have hcat : analyzeToxicityCategoriesMl (cleanContentForMl "fuck hate".toList)
        (max 0 (min 1 (1/2 : ℚ))) = ["profanity", "hate_speech"] := by
      have hmm : max 0 (min 1 (1/2 : ℚ)) = 1/2 := by norm_num
      rw [hmm]
      unfold analyzeToxicityCategoriesMl
      rw [if_pos (by norm_num)]
      norm_num +decide [profanityKeywords, hateKeywords, harassmentKeywords,
        threatKeywords]
    simp only [checkToxicity, mlDetector, initDetector, checkToxicityMl,
      mkMlVerdict, hcat]
    norm_num [round3, round4, roundHalfEven, min_def, max_def, abs]
  · intro h
    have h2 := (List.sorted_cons.mp h).1 "hate_speech" (by simp)
    exact absurd h2 (by decide)

/-- C3 (amended): on both paths the categories list has no duplicates; on
the pattern path it is additionally sorted ascending (Python string
order), while on the classifier path it follows the fixed attribution
order profanity, hate_speech, harassment, threat, general_toxicity. -/
theorem C3_categories_shape (content : List Char) (d : Detector) (p : ℚ) :
    ((checkToxicityRuleBased content).categories.Nodup ∧
      List.Sorted PyLe (checkToxicityRuleBased content).categories) ∧
    ((mkMlVerdict d content p).categories.Nodup ∧
      List.Sublist (mkMlVerdict d content p).categories
        ["profanity", "hate_speech", "harassment", "threat", "general_toxicity"]) := by
  refine ⟨⟨?_, ?_⟩, ?_, ?_⟩
  · rw [checkToxicityRuleBased_categories]
    exact ((List.perm_insertionSort PyLe _).nodup_iff).mpr (specMatched_nodup _)
  · rw [checkToxicityRuleBased_categories]
    exact List.sorted_insertionSort PyLe _
  · exact List.Nodup.sublist (analyzeMl_sublist _ _) (by decide)
  · exact analyzeMl_sublist _ _

/-- C1 (counterexample): the pattern path on
`"you are an idiot and a moron"` yields an EMPTY categories list and
`is_toxic = false` — the harassment pattern
`\b(stupid|idiot|moron|dumb).*(person|people|you)\b` requires one of
`person|people|you` to occur after the insult keyword, which this text does
not contain. -/
theorem C1_counterexample :
    (checkToxicity patternDetector
        (PyInput.str "you are an idiot and a moron".toList) (Except.error ())).1 =
      Except.ok
        { is_toxic := false, toxicity_score := 0, confidence := 3/10,
          categories := [], content_length := 28,
          detector_version := "1.0.0-rule-based",
          model_used := "rule-based-patterns",
          threshold_used := none, raw_score := none } := by
  have h : findToxicPatterns (cleanContent "you are an idiot and a moron".toList)
      = [] := by decide
  simp only [checkToxicity, patternDetector, initDetector, checkToxicityRuleBasedD,
    checkToxicityRuleBased, h]
  norm_num +decide [calculateToxicityScore, round3, roundHalfEven]

/-- C1 (amended): the harassment pattern only fires when `person`, `people`
or `you` follows the insult keyword, so the original text matches nothing
(see the counterexample), while `"you are an idiot and a moron you"` yields
one harassment match, categories `["harassment"]` and `is_toxic = true`
(score 0.7 > 0.5). -/
theorem C1_pattern_path :
    (checkToxicity patternDetector
        (PyInput.str "you are an idiot and a moron you".toList) (Except.error ())).1 =
      Except.ok
        { is_toxic := true, toxicity_score := 7/10, confidence := 1/2,
          categories := ["harassment"], content_length := 32,
          detector_version := "1.0.0-rule-based",
          model_used := "rule-based-patterns",
          threshold_used := none, raw_score := none } := by
  have h : findToxicPatterns (cleanContent "you are an idiot and a moron you".toList)
      = [4] := by decide
  simp only [checkToxicity, patternDetector, initDetector, checkToxicityRuleBasedD,
    checkToxicityRuleBased, h]
  norm_num +decide [calculateToxicityScore, processMatch, ruleCategories, dictAdd,
    setInsert, weightOf, severityWeights, lookupQ, List.insertionSort,
    List.orderedInsert, min_def, round3, roundHalfEven]

/-- C7 (counterexample): a whitespace-only string is truthy in Python, so
`check_toxicity("   ")` passes validation and reaches the pattern scorer
(returning a zero-score verdict) instead of raising `InvalidInput`. -/
theorem C7_counterexample :
    (checkToxicity patternDetector (PyInput.str "   ".toList) (Except.error ())).1 =
      Except.ok
        { is_toxic := false, toxicity_score := 0, confidence := 3/10,
          categories := [], content_length := 3,
          detector_version := "1.0.0-rule-based",
          model_used := "rule-based-patterns",
          threshold_used := none, raw_score := none } := by
  have h : findToxicPatterns (cleanContent "   ".toList) = [] := by decide
  simp only [checkToxicity, patternDetector, initDetector, checkToxicityRuleBasedD,
    checkToxicityRuleBased, h]
  norm_num +decide [calculateToxicityScore, round3, roundHalfEven]

/-- C7 (amended): `check_toxicity` raises `ValueError`, with neither scorer
invoked, exactly when the input is `None`, a non-string, or the empty
string; whitespace-only strings are accepted and scored. -/
theorem C7_input_validation (d : Detector) (input : PyInput) (raw : Except Unit ℚ) :
    (checkToxicity d input raw).1 = Except.error PyErr.valueError ↔
      (input = PyInput.noneVal ∨ input = PyInput.nonString ∨
        input = PyInput.str []) := by
  cases input with
  | noneVal => simp [checkToxicity]
  | nonString => simp [checkToxicity]
  | str s =>
    cases s with
    | nil => simp [checkToxicity]
    | cons x xs =>
      simp only [checkToxicity, List.isEmpty_cons, Bool.false_eq_true, if_false]
      constructor
      · intro h
        exfalso
        by_cases hml : d.use_ml_model
        · rw [if_pos hml] at h
          cases raw with
          | ok p => simp [checkToxicityMl] at h
          | error e =>
            simp only [checkToxicityMl, checkToxicityRuleBasedD] at h
            split at h
            · simp at h
            · simp at h
        · rw [if_neg hml] at h
          simp only [checkToxicityRuleBasedD] at h
          split at h
          · simp at h
          · simp at h
      · intro h
        rcases h with h | h | h <;> simp at h

theorem C7_input_validation_witness :
    (checkToxicity patternDetector (PyInput.str []) (Except.error ())).1 =
      Except.error PyErr.valueError :=
  (C7_input_validation patternDetector (PyInput.str []) (Except.error ())).mpr
    (Or.inr (Or.inr rfl))

theorem C10_categories_vs_score_witness :
    (checkToxicityRuleBased "fuck".toList).categories ≠ [] ∧
      3/10 ≤ (checkToxicityRuleBased "fuck".toList).toxicity_score := by
  have h : (checkToxicityRuleBased "fuck".toList).categories = ["profanity"] := by decide
  have hne : (checkToxicityRuleBased "fuck".toList).categories ≠ [] := by
    rw [h]
    exact List.cons_ne_nil _ _
  exact ⟨hne, (C10_categories_vs_score "fuck".toList).2 hne⟩

end Moderation
